import Mathlib

/-!
Shallow embedding of the extension-composition container of the Falcon GraphQL
server (src/packages/falcon-server/src/containers/ExtensionContainer.ts).

JavaScript objects that the container manipulates are modelled by the small
value universe `JVal`; objects are insertion-ordered association lists of
string keys, which is how JS preserves and iterates string-keyed properties.
Functions stored inside configuration objects are carried as opaque tags
(`JVal.fn`), since the container never calls them while merging.
-/

/-- A JavaScript value as far as the extension container inspects values:
strings, numbers, arrays, plain objects, opaque function values and
`undefined`. -/
inductive JVal where
  | undef
  | str (s : String)
  | num (n : Int)
  | arr (elems : List JVal)
  | dict (fields : List (String × JVal))
  | fn (tag : Nat)

/-- Whether the value is `undefined` (the `typeof source[name] === 'undefined'`
test of `mergeGraphQLConfig`, line 182). -/
def JVal.isUndef : JVal → Bool
  | .undef => true
  | _ => false

/-- `typeof item === 'string'` (non-string schema items are warned about,
lines 191-198). -/
def JVal.isStr : JVal → Bool
  | .str _ => true
  | _ => false

/-- `Array.isArray` (lines 141, 186, 290). -/
def jsIsArray : JVal → Bool
  | .arr _ => true
  | _ => false

/-- JS truthiness of a value, as used by guards such as
`defaultConfig.resolvers && ...` (line 141) and `defaultConfig.context ? ... : ...`
(line 137). -/
def jsTruthy : JVal → Bool
  | .undef => false
  | .str s => !(s == "")
  | .num n => !(n == 0)
  | .arr _ => true
  | .dict _ => true
  | .fn _ => true

/-- `const valueArray = Array.isArray(value) ? value : [value]` (line 186). -/
def toValueArray : JVal → List JVal
  | .arr vs => vs
  | v => [v]

/-- First-occurrence lookup in an insertion-ordered property list; this is how
reading a property of a JS object behaves when the list never carries a
duplicate key, and `setKey` below keeps first occurrences authoritative. -/
def lookupKey {α : Type} : List (String × α) → String → Option α
  | [], _ => none
  | (k, v) :: rest, key => if k = key then some v else lookupKey rest key

/-- Setting a property on a JS object (also `Map.set`): overwrite the value at
an existing key in place, keeping its position, otherwise append the new key at
the end. -/
def setKey {α : Type} : List (String × α) → String → α → List (String × α)
  | [], key, v => [(key, v)]
  | (k, w) :: rest, key, v =>
      if k = key then (key, v) :: rest else (k, w) :: setKey rest key v

/-- Last-occurrence lookup: the value a source property list contributes for a
key when all its pairs are assigned onto a target in order. -/
def lastKey {α : Type} : List (String × α) → String → Option α
  | [], _ => none
  | (k, v) :: rest, key =>
      match lastKey rest key with
      | some w => some w
      | none => if k = key then some v else none

/-- `Object.assign(target, source)` on property lists: every own property of
the source is set on the target in source order. -/
def jsAssign {α : Type} (target source : List (String × α)) : List (String × α) :=
  source.foldl (fun t kv => setKey t kv.1 kv.2) target

/-- Concatenation of a list of lists, used to state order-preservation of the
accumulated schema fragments. -/
def listConcat {α : Type} (ls : List (List α)) : List α :=
  ls.foldr (fun a b => a ++ b) []

/-- `Object.assign(target, value)` at the `JVal` level, for the `dataSources`
merge case (line 209). Only a plain object source carries the string-keyed
enumerable data properties this container stores under `dataSources`; a
non-object source leaves the (object) target unchanged. -/
def jsObjAssign (target source : JVal) : JVal :=
  match target, source with
  | .dict t, .dict s => .dict (jsAssign t s)
  | t, _ => t

/-- A JS exception: either a `TypeError` raised by the runtime (for example by
`Object.assign` on an undefined target, or by a property access on `null`) or
an `Error` thrown explicitly by the container. -/
inductive JSErr where
  | typeError (msg : String)
  | error (msg : String)

/-- A diagnostic emitted through `Logger.warn` while merging, carried
structurally: the offending configuration key is the payload. -/
inductive Warning where
  | nonStringSchema (key : String)
  | unsupportedOption (key : String)
  deriving DecidableEq

/-- One extension entry of the registry: the untyped configuration bag a
resolved extension contributes, iterated key by key by `mergeGraphQLConfig`
(`Object.keys(source).forEach`, line 181). -/
abbrev ExtensionGraphQLConfig := List (String × JVal)

/-- The accumulating ApolloServer configuration built by
`createGraphQLConfig`: the bookkeeping arrays `schemas`, `resolvers` and
`contextModifiers`, the base `context` and `dataSources` fields, and all
remaining passthrough fields of the base configuration (`others`).
`dataSources` is `none` when the base configuration carried no such field
(the seed object of line 132 does not create one). -/
structure AggregateConfig where
  schemas : List JVal
  resolvers : List JVal
  contextModifiers : List JVal
  context : Option JVal
  dataSources : Option JVal
  others : List (String × JVal)

/-- The base configuration accepted by `createGraphQLConfig`
(`GraphQLConfigDefaults`, lines 23-27): every field is optional, and unknown
passthrough fields are kept in `others`. -/
structure GraphQLConfigDefaults where
  schemas : Option (List JVal)
  resolvers : Option JVal
  context : Option JVal
  contextModifiers : Option (List JVal)
  dataSources : Option JVal
  others : List (String × JVal)

/-- The seeding step of `createGraphQLConfig` (lines 132-143):
`Object.assign({schemas: [], contextModifiers: defaultConfig.context ? [defaultConfig.context] : []},
defaultConfig, {resolvers: defaultConfig.resolvers && !Array.isArray(defaultConfig.resolvers) ? [defaultConfig.resolvers] : []})`.
The middle operand overrides the two seeded defaults only when the base
carries those keys itself; the third operand always overrides `resolvers`. -/
def seedAggregate (defaultConfig : GraphQLConfigDefaults) : AggregateConfig :=
  { schemas := defaultConfig.schemas.getD []
    contextModifiers :=
      defaultConfig.contextModifiers.getD
        (match defaultConfig.context with
         | some c => if jsTruthy c then [c] else []
         | none => [])
    context := defaultConfig.context
    dataSources := defaultConfig.dataSources
    resolvers :=
      match defaultConfig.resolvers with
      | some v => if jsTruthy v && !(jsIsArray v) then [v] else []
      | none => []
    others := defaultConfig.others }

/-- One iteration of the `Object.keys(source).forEach` body of
`mergeGraphQLConfig` (lines 181-221): skip empty names and undefined values,
then dispatch on the key. The `dataSources` case is
`Object.assign(dest.dataSources, value)`, which raises a `TypeError` when
`dest.dataSources` is `undefined`; the default case only warns. -/
def mergeStep (dest : AggregateConfig) (name : String) (value : JVal) :
    Except JSErr (AggregateConfig × List Warning) :=
  if name = "" then .ok (dest, [])
  else if value.isUndef then .ok (dest, [])
  else if name = "schema" ∨ name = "schemas" then
    .ok ({ dest with schemas := dest.schemas ++ toValueArray value },
         ((toValueArray value).filter (fun v => !(v.isStr))).map
           (fun _ => Warning.nonStringSchema name))
  else if name = "resolvers" then
    .ok ({ dest with resolvers := dest.resolvers ++ toValueArray value }, [])
  else if name = "context" then
    .ok ({ dest with contextModifiers := dest.contextModifiers ++ [value] }, [])
  else if name = "dataSources" then
    match dest.dataSources with
    | none => .error (.typeError "Cannot convert undefined or null to object")
    | some target =>
        .ok ({ dest with dataSources := some (jsObjAssign target value) }, [])
  else .ok (dest, [Warning.unsupportedOption name])

/-- `mergeGraphQLConfig` (lines 178-222): fold `mergeStep` over the source
configuration in key order, collecting warnings; a raised `TypeError`
propagates. -/
def mergeGraphQLConfig (dest : AggregateConfig) :
    ExtensionGraphQLConfig → Except JSErr (AggregateConfig × List Warning)
  | [] => .ok (dest, [])
  | (name, value) :: rest =>
      match mergeStep dest name value with
      | .error e => .error e
      | .ok (d, w1) =>
          match mergeGraphQLConfig d rest with
          | .error e => .error e
          | .ok (d', w2) => .ok (d', w1 ++ w2)

/-- The schema fragments a single configuration entry appends to
`dest.schemas`: the normalized value array when the key is `schema` or
`schemas` and survives the skip guards, nothing otherwise. -/
def entryFragments (name : String) (value : JVal) : List JVal :=
  if name = "" then []
  else if value.isUndef then []
  else if name = "schema" ∨ name = "schemas" then toValueArray value
  else []

/-- All schema fragments one extension configuration contributes, in its own
key order. -/
def sourceFragments (source : ExtensionGraphQLConfig) : List JVal :=
  listConcat (source.map (fun kv => entryFragments kv.1 kv.2))

/-- `Map.set` of the JS `entries` registry (line 61): overwrite in place at an
existing identifier, append otherwise. -/
def mapSet {α : Type} (entries : List (String × α)) (key : String) (v : α) :
    List (String × α) :=
  setKey entries key v

/-- The registry effect of `registerExtensions` (lines 41-69): each extension
of the insertion-ordered entry map is resolved and stored under its identifier
via `Map.set`. Module loading, schema-file import and the deep merge that
produce each resolved configuration are external inputs here, so the model
receives every extension paired with its already-resolved configuration. -/
def registerExtensionsModel (entries : List (String × ExtensionGraphQLConfig))
    (extensions : List (String × ExtensionGraphQLConfig)) :
    List (String × ExtensionGraphQLConfig) :=
  extensions.foldl (fun es kv => mapSet es kv.1 kv.2) entries

/-- The merge loop of `createGraphQLConfig` (lines 145-147): fold every
registered extension configuration into the aggregate, in registration
order. -/
def mergeAll (agg : AggregateConfig) :
    List (String × ExtensionGraphQLConfig) →
    Except JSErr (AggregateConfig × List Warning)
  | [] => .ok (agg, [])
  | (_, source) :: rest =>
      match mergeGraphQLConfig agg source with
      | .error e => .error e
      | .ok (d, w1) =>
          match mergeAll d rest with
          | .error e => .error e
          | .ok (d', w2) => .ok (d', w1 ++ w2)

/-- `createGraphQLConfig` up to and including its merge loop (lines 131-147):
seed the aggregate from the base configuration, then fold in every registered
extension. The later steps (synthesizing the context function, handing
`schemas` and `resolvers` to the external schema-stitching engine and deleting
the bookkeeping fields) consume this aggregate unchanged. -/
def createGraphQLConfigMerged (defaultConfig : GraphQLConfigDefaults)
    (entries : List (String × ExtensionGraphQLConfig)) :
    Except JSErr (AggregateConfig × List Warning) :=
  mergeAll (seedAggregate defaultConfig) entries

/-- A context modifier accumulated in `contextModifiers`: either a plain
object or a function of the request argument and the context accumulated so
far (`typeof modifier === 'function'`, line 154). The request argument type is
the parameter `ρ`. -/
inductive CtxModifier (ρ : Type) where
  | objLit (fields : List (String × JVal))
  | func (f : ρ → List (String × JVal) → List (String × JVal))

/-- `typeof modifier === 'function' ? modifier(arg, ctx) : modifier`
(line 154): the property list one modifier contributes. -/
def applyModifier {ρ : Type} (arg : ρ) (ctx : List (String × JVal)) :
    CtxModifier ρ → List (String × JVal)
  | .func f => f arg ctx
  | .objLit fields => fields

/-- The context handler synthesized by `createGraphQLConfig` (lines 151-157):
starting from `{}`, assign each modifier contribution onto the accumulated
context, in order. -/
def buildContext {ρ : Type} (contextModifiers : List (CtxModifier ρ)) (arg : ρ) :
    List (String × JVal) :=
  contextModifiers.foldl (fun ctx modifier => jsAssign ctx (applyModifier arg ctx modifier)) []

/-- A backend configuration object as the aggregator sees it: an optional
`locales` array plus any other fields. The same shape models the per-provider
`RemoteBackendConfig` results and the reduced `BackendConfig`
(`Array.isArray(locales)` holds exactly when the field is present as a
list). -/
structure BackendConfigObj where
  locales : Option (List String)
  extra : List (String × JVal)

/-- One step of the `configs.reduce` of `mergeBackendConfigs` (lines 100-123):
skip a falsy element, otherwise intersect the locales of the current result
with the accumulated ones (`currLocales.filter(loc => prevLocales.indexOf(loc) >= 0)`),
taking whichever side has a locales array when only one does, and keep only
the merged `locales` field. -/
def mergeBackendStep (prev : BackendConfigObj) (current : Option BackendConfigObj) :
    BackendConfigObj :=
  match current with
  | none => prev
  | some current =>
      let mergedLocales : Option (List String) :=
        match current.locales, prev.locales with
        | some currLocales, some prevLocales =>
            some (currLocales.filter (fun loc => prevLocales.contains loc))
        | some currLocales, none => some currLocales
        | none, _ => prev.locales
      { locales := mergedLocales, extra := [] }

/-- `mergeBackendConfigs` (lines 99-124): reduce the collected results from
the empty accumulator `{}`. -/
def mergeBackendConfigs (configs : List (Option BackendConfigObj)) : BackendConfigObj :=
  configs.foldl mergeBackendStep { locales := none, extra := [] }

/-- A configured data-source provider as `fetchBackendConfig` inspects it:
`fetchBackendConfig` is `some f` exactly when
`typeof api.fetchBackendConfig === 'function'`; `f` maps the (fixed) resolver
arguments of the current request, abstracted as `ρ`, to the providers result,
`none` standing for a falsy result that is not collected. -/
structure ApiProvider (ρ : Type) where
  fetchBackendConfig : Option (ρ → Option BackendConfigObj)

/-- The `for (const [apiName, api] of Object.entries(context.dataSources))`
loop of the `fetchBackendConfig` resolver (lines 79-91), with the collected
`configs` array as accumulator: a provider without the capability makes the
whole resolver return `undefined` (`return;`, line 82); truthy results are
pushed; after the loop the collected results are reduced. -/
def fetchBackendConfigLoop {ρ : Type} (req : ρ) :
    List (String × ApiProvider ρ) → List (Option BackendConfigObj) →
    Option BackendConfigObj
  | [], configs => some (mergeBackendConfigs configs)
  | (_, api) :: rest, configs =>
      match api.fetchBackendConfig with
      | none => none
      | some f =>
          match f req with
          | some apiConfig => fetchBackendConfigLoop req rest (configs ++ [some apiConfig])
          | none => fetchBackendConfigLoop req rest configs

/-- The `fetchBackendConfig` resolver (lines 75-92), as a function of the
request contexts data sources and the abstracted resolver arguments. -/
def fetchBackendConfig {ρ : Type} (dataSources : List (String × ApiProvider ρ))
    (req : ρ) : Option BackendConfigObj :=
  fetchBackendConfigLoop req dataSources []

/-- A data source as the auto-bound resolver reads it: a property table from
field names to either `undefined` (`none`) or a function-valued method, the
method itself indexed into an interpretation table so that the request context
(which in turn contains the data sources) can be forwarded to it verbatim. -/
structure ApiDataSource where
  props : String → Option Nat

/-- The GraphQL request context as the auto-bound resolver reads it:
`context.dataSources` plus the rest of the context, abstracted as `γ`. -/
structure ReqContext (γ : Type) where
  dataSources : List (String × ApiDataSource)
  extra : γ

/-- `getApi` (lines 301-303): `name in dataSources ? dataSources[name] : null`,
with `none` standing for `null`. -/
def getApi (dataSources : List (String × ApiDataSource)) (name : String) :
    Option ApiDataSource :=
  if (lookupKey dataSources name).isSome then lookupKey dataSources name else none

/-- JS strict equality between the property value read from the data source
(either `undefined` or a function object) and a string literal, as in the
guard expression `dataSource[fieldName] !== 'function'` (line 279): operands
of different runtime types are never strictly equal, so the comparison is
false for both possible shapes of the property value. -/
def propStrictEqString (prop : Option Nat) (lit : String) : Bool :=
  match prop, lit with
  | none, _ => false
  | some _, _ => false

/-- `typeof` of a boolean value is the string `"boolean"`; the guard of
line 279 applies `typeof` to the result of the `!==` comparison. -/
def jsTypeofBool (_ : Bool) : String := "boolean"

/-- JS truthiness of a string used as an `if` condition: every non-empty
string is truthy. -/
def stringTruthy (s : String) : Bool := !(s == "")

/-- The outcome of invoking a resolver: a resolved value, or a raised JS
exception (an async resolver rejecting its promise). -/
inductive ResolveOutcome (α : Type) where
  | ok (value : α)
  | thrown (e : JSErr)

/-- The pass-through resolver synthesized by `getExtensionGraphQLConfig` for a
root-type field (lines 272-285), with the data-source methods interpreted
through `interp`:
1. `const dataSource = this.getApi(context.dataSources, dataSourceName);`
2. `if (typeof (dataSource[fieldName] !== 'function')) throw new Error(...)` —
   reading the property of a `null` data source raises a `TypeError`
   (message text is engine specific; the modelled fact is the raised
   `TypeError`); otherwise the comparison yields a boolean, its `typeof` is
   the non-empty (hence truthy) string `"boolean"`, and the `Error` is thrown;
3. `return dataSource[fieldName](obj, args, context, info);` forwards the four
   resolver arguments verbatim. -/
def boundResolver {γ α : Type} (interp : Nat → α → α → ReqContext γ → α → α)
    (dataSourceName fieldName : String)
    (obj args : α) (context : ReqContext γ) (info : α) : ResolveOutcome α :=
  match getApi context.dataSources dataSourceName with
  | none =>
      .thrown (.typeError ("Cannot read properties of null (reading " ++ fieldName ++ ")"))
  | some dataSource =>
      let notFn : Bool := !(propStrictEqString (dataSource.props fieldName) "function")
      if stringTruthy (jsTypeofBool notFn) then
        .thrown (.error ("ExtensionContainer: " ++ dataSourceName ++ "." ++ fieldName ++
          "() resolver method is not defined!"))
      else
        match dataSource.props fieldName with
        | some m => .ok (interp m obj args context info)
        | none => .thrown (.typeError (fieldName ++ " is not a function"))

/-- Interpretation table for data-source methods in the concrete examples:
method `0` combines the three numeric resolver arguments. -/
def interpEx : Nat → Int → Int → ReqContext Unit → Int → Int :=
  fun _ obj args _ info => obj + args + info

/-- A data source exposing exactly one function-valued method `foo`. -/
def dsX : ApiDataSource :=
  { props := fun fieldName => if fieldName = "foo" then some 0 else none }

/-- A request context in which `dataSources.X` exists and `dataSources.X.foo`
is a function-valued method. -/
def ctxWithX : ReqContext Unit :=
  { dataSources := [("X", dsX)], extra := () }

/-- A request context with no data source registered at all. -/
def ctxNoX : ReqContext Unit :=
  { dataSources := [], extra := () }

/-- A base configuration carrying none of the recognized fields. -/
def emptyDefaults : GraphQLConfigDefaults :=
  { schemas := none, resolvers := none, context := none,
    contextModifiers := none, dataSources := none, others := [] }

/-- A base configuration whose `resolvers` field is a (non-empty) array of
resolver maps, the shape `GraphQLConfigDefaults` itself declares for the
field. -/
def baseWithArrayResolvers : GraphQLConfigDefaults :=
  { emptyDefaults with
    resolvers := some (JVal.arr [JVal.dict [("Query", JVal.fn 0)]]) }

/-- An empty aggregate configuration. -/
def agg0 : AggregateConfig :=
  { schemas := [], resolvers := [], contextModifiers := [],
    context := none, dataSources := none, others := [] }

/-- Three registered extensions: one contributing a single fragment under
`schema`, one contributing no fragment at all, one contributing two fragments
under `schemas`. -/
def entriesThree : List (String × ExtensionGraphQLConfig) :=
  [("blog", [("schema", JVal.str "type Query \x7b post: String \x7d")]),
   ("tracker", [("resolvers", JVal.dict [("Query", JVal.fn 3)])]),
   ("shop", [("schemas", JVal.arr [JVal.str "type Query \x7b cart: String \x7d",
                                   JVal.str "type Mutation \x7b buy: String \x7d"])])]

/-- A first configuration stored for the extension identifier `shop`. -/
def extOld : ExtensionGraphQLConfig := [("schema", JVal.str "type Old")]

/-- A replacement configuration stored for the same identifier `shop`. -/
def extNew : ExtensionGraphQLConfig := [("schema", JVal.str "type New")]

/-- The registry after registering `shop` twice, the second registration
replacing the first. -/
def registryTwice : List (String × ExtensionGraphQLConfig) :=
  registerExtensionsModel [] [("shop", extOld), ("shop", extNew)]

/-- A provider that supports backend-config fetch and reports one locale. -/
def providerEn : ApiProvider Unit :=
  { fetchBackendConfig := some (fun _ => some { locales := some ["en"], extra := [] }) }

/-- A provider without the backend-config capability
(`typeof api.fetchBackendConfig !== 'function'`). -/
def providerNoFetch : ApiProvider Unit :=
  { fetchBackendConfig := none }

/-- One registered extension contributing a `dataSources` binding. -/
def entriesWithDataSources : List (String × ExtensionGraphQLConfig) :=
  [("shop", [("dataSources", JVal.dict [("shopApi", JVal.fn 7)])])]

theorem lookupKey_setKey {α : Type} (d : List (String × α)) (key : String) (v : α)
    (q : String) :
    lookupKey (setKey d key v) q = if key = q then some v else lookupKey d q := by
  induction d with
  | nil => simp [lookupKey, setKey]
  | cons hd tl ih =>
      obtain ⟨k, w⟩ := hd
      by_cases hk : k = key
      · subst hk
        by_cases hq : k = q <;> simp [lookupKey, setKey, hq]
      · by_cases hq : k = q
        · subst hq
          have : ¬ key = k := fun h => hk h.symm
          simp [lookupKey, setKey, hk, this]
        · simp [lookupKey, setKey, hk, hq, ih]

theorem lookupKey_jsAssign {α : Type} (s d : List (String × α)) (q : String) :
    lookupKey (jsAssign d s) q =
      match lastKey s q with
      | some v => some v
      | none => lookupKey d q := by
  induction s generalizing d with
  | nil => simp [jsAssign, lastKey]
  | cons hd tl ih =>
      obtain ⟨k, v⟩ := hd
      have hstep : jsAssign d ((k, v) :: tl) = jsAssign (setKey d k v) tl := rfl
      rw [hstep, ih]
      cases hlast : lastKey tl q with
      | some w => simp [lastKey, hlast]
      | none =>
          by_cases hk : k = q <;> simp [lastKey, hlast, hk, lookupKey_setKey]

theorem setKey_setKey {α : Type} (d : List (String × α)) (key : String) (v1 v2 : α) :
    setKey (setKey d key v1) key v2 = setKey d key v2 := by
  induction d with
  | nil => simp [setKey]
  | cons hd tl ih =>
      obtain ⟨k, w⟩ := hd
      by_cases hk : k = key <;> simp [setKey, hk, ih]

theorem lookupKey_setKey_self {α : Type} (d : List (String × α)) (key : String) (v : α) :
    lookupKey (setKey d key v) key = some v := by
  simp [lookupKey_setKey]

theorem mergeStep_ok_schemas (dest : AggregateConfig) (name : String) (value : JVal)
    (d : AggregateConfig) (ws : List Warning)
    (h : mergeStep dest name value = .ok (d, ws)) :
    d.schemas = dest.schemas ++ entryFragments name value := by
  unfold mergeStep at h
  unfold entryFragments
  split_ifs at h ⊢
  all_goals try (cases hds : dest.dataSources <;> rw [hds] at h)
  all_goals simp at h
  all_goals try (obtain ⟨rfl, rfl⟩ := h)
  all_goals simp

theorem mergeStep_frame (dest : AggregateConfig) (name : String) (value : JVal)
    (d : AggregateConfig) (ws : List Warning)
    (h : mergeStep dest name value = .ok (d, ws)) :
    d.others = dest.others ∧ d.context = dest.context := by
  unfold mergeStep at h
  split_ifs at h
  all_goals try (cases hds : dest.dataSources <;> rw [hds] at h)
  all_goals simp at h
  all_goals try (obtain ⟨rfl, rfl⟩ := h)
  all_goals simp

theorem mergeStep_dataSources_none (dest : AggregateConfig) (name : String) (value : JVal)
    (d : AggregateConfig) (ws : List Warning)
    (h : mergeStep dest name value = .ok (d, ws))
    (hds : dest.dataSources = none) :
    d.dataSources = none := by
  unfold mergeStep at h
  split_ifs at h
  all_goals try rw [hds] at h
  all_goals simp at h
  all_goals try (obtain ⟨rfl, rfl⟩ := h)
  all_goals simp [hds]

theorem mergeStep_error (dest : AggregateConfig) (name : String) (value : JVal)
    (e : JSErr) (h : mergeStep dest name value = .error e) :
    e = .typeError "Cannot convert undefined or null to object" := by
  unfold mergeStep at h
  split_ifs at h
  all_goals try (cases hds : dest.dataSources <;> rw [hds] at h)
  all_goals simp at h
  all_goals simp [h]

theorem mergeStep_unsupported (dest : AggregateConfig) (name : String) (value : JVal)
    (hname : name ≠ "") (hval : value.isUndef = false)
    (hrec : name ∉ ["schema", "schemas", "resolvers", "context", "dataSources"]) :
    mergeStep dest name value = .ok (dest, [Warning.unsupportedOption name]) := by
  simp only [List.mem_cons, List.mem_singleton] at hrec
  push_neg at hrec
  obtain ⟨h1, h2, h3, h4, h5⟩ := hrec
  unfold mergeStep
  simp [hname, hval, h1, h2, h3, h4, h5]

theorem mergeStep_dataSources_error (dest : AggregateConfig) (value : JVal)
    (hval : value.isUndef = false) (hds : dest.dataSources = none) :
    mergeStep dest "dataSources" value =
      .error (.typeError "Cannot convert undefined or null to object") := by
  unfold mergeStep
  simp [hval, hds]

theorem mergeGraphQLConfig_ok_schemas (source : ExtensionGraphQLConfig) :
    ∀ (dest d : AggregateConfig) (ws : List Warning),
    mergeGraphQLConfig dest source = .ok (d, ws) →
    d.schemas = dest.schemas ++ sourceFragments source := by
  induction source with
  | nil =>
      intro dest d ws h
      simp [mergeGraphQLConfig] at h
      simp [sourceFragments, listConcat, h.1]
  | cons hd tl ih =>
      intro dest d ws h
      obtain ⟨name, value⟩ := hd
      unfold mergeGraphQLConfig at h
      cases hs : mergeStep dest name value with
      | error e => simp only [hs] at h; exact Except.noConfusion h
      | ok p =>
          obtain ⟨d1, w1⟩ := p
          simp only [hs] at h
          cases hm : mergeGraphQLConfig d1 tl with
          | error e => simp only [hm] at h; exact Except.noConfusion h
          | ok q =>
              obtain ⟨d2, w2⟩ := q
              simp only [hm] at h
              simp at h
              obtain ⟨hd2, -⟩ := h
              subst hd2
              have h1 := mergeStep_ok_schemas dest name value d1 w1 hs
              have h2 := ih d1 d2 w2 hm
              simp [sourceFragments, listConcat] at h2 ⊢
              rw [h2, h1, List.append_assoc]

theorem mergeGraphQLConfig_frame (source : ExtensionGraphQLConfig) :
    ∀ (dest d : AggregateConfig) (ws : List Warning),
    mergeGraphQLConfig dest source = .ok (d, ws) →
    d.others = dest.others ∧ d.context = dest.context := by
  induction source with
  | nil =>
      intro dest d ws h
      simp [mergeGraphQLConfig] at h
      simp [h.1]
  | cons hd tl ih =>
      intro dest d ws h
      obtain ⟨name, value⟩ := hd
      unfold mergeGraphQLConfig at h
      cases hs : mergeStep dest name value with
      | error e => simp only [hs] at h; exact Except.noConfusion h
      | ok p =>
          obtain ⟨d1, w1⟩ := p
          simp only [hs] at h
          cases hm : mergeGraphQLConfig d1 tl with
          | error e => simp only [hm] at h; exact Except.noConfusion h
          | ok q =>
              obtain ⟨d2, w2⟩ := q
              simp only [hm] at h
              simp at h
              obtain ⟨hd2, -⟩ := h
              subst hd2
              have h1 := mergeStep_frame dest name value d1 w1 hs
              have h2 := ih d1 d2 w2 hm
              exact ⟨h2.1.trans h1.1, h2.2.trans h1.2⟩

theorem mergeGraphQLConfig_warns (source : ExtensionGraphQLConfig) :
    ∀ (dest d : AggregateConfig) (ws : List Warning),
    mergeGraphQLConfig dest source = .ok (d, ws) →
    ∀ (key : String) (v : JVal), (key, v) ∈ source → key ≠ "" → v.isUndef = false →
    key ∉ ["schema", "schemas", "resolvers", "context", "dataSources"] →
    Warning.unsupportedOption key ∈ ws := by
  induction source with
  | nil =>
      intro dest d ws h key v hmem
      simp at hmem
  | cons hd tl ih =>
      intro dest d ws h key v hmem hname hval hrec
      obtain ⟨name, value⟩ := hd
      unfold mergeGraphQLConfig at h
      cases hs : mergeStep dest name value with
      | error e => simp only [hs] at h; exact Except.noConfusion h
      | ok p =>
          obtain ⟨d1, w1⟩ := p
          simp only [hs] at h
          cases hm : mergeGraphQLConfig d1 tl with
          | error e => simp only [hm] at h; exact Except.noConfusion h
          | ok q =>
              obtain ⟨d2, w2⟩ := q
              simp only [hm] at h
              simp at h
              obtain ⟨-, hws⟩ := h
              subst hws
              rcases List.mem_cons.mp hmem with hhd | htl
              · injection hhd with hk hv
                subst hk; subst hv
                have hstep := mergeStep_unsupported dest key v hname hval hrec
                rw [hstep] at hs
                simp at hs
                obtain ⟨-, hw1⟩ := hs
                subst hw1
                exact List.mem_append_left _ (List.mem_singleton_self _)
              · exact List.mem_append_right _ (ih d1 d2 w2 hm key v htl hname hval hrec)

theorem mergeGraphQLConfig_dataSources_none (source : ExtensionGraphQLConfig) :
    ∀ (dest d : AggregateConfig) (ws : List Warning),
    mergeGraphQLConfig dest source = .ok (d, ws) → dest.dataSources = none →
    d.dataSources = none := by
  induction source with
  | nil =>
      intro dest d ws h hds
      simp [mergeGraphQLConfig] at h
      rw [← h.1]; exact hds
  | cons hd tl ih =>
      intro dest d ws h hds
      obtain ⟨name, value⟩ := hd
      unfold mergeGraphQLConfig at h
      cases hs : mergeStep dest name value with
      | error e => simp only [hs] at h; exact Except.noConfusion h
      | ok p =>
          obtain ⟨d1, w1⟩ := p
          simp only [hs] at h
          cases hm : mergeGraphQLConfig d1 tl with
          | error e => simp only [hm] at h; exact Except.noConfusion h
          | ok q =>
              obtain ⟨d2, w2⟩ := q
              simp only [hm] at h
              simp at h
              obtain ⟨hd2, -⟩ := h
              subst hd2
              exact ih d1 d2 w2 hm (mergeStep_dataSources_none dest name value d1 w1 hs hds)

theorem mergeGraphQLConfig_error (source : ExtensionGraphQLConfig) :
    ∀ (dest : AggregateConfig) (e : JSErr),
    mergeGraphQLConfig dest source = .error e →
    e = .typeError "Cannot convert undefined or null to object" := by
  induction source with
  | nil =>
      intro dest e h
      simp [mergeGraphQLConfig] at h
  | cons hd tl ih =>
      intro dest e h
      obtain ⟨name, value⟩ := hd
      unfold mergeGraphQLConfig at h
      cases hs : mergeStep dest name value with
      | error e1 =>
          simp only [hs] at h
          injection h with he
          subst he
          exact mergeStep_error dest name value e1 hs
      | ok p =>
          obtain ⟨d1, w1⟩ := p
          simp only [hs] at h
          cases hm : mergeGraphQLConfig d1 tl with
          | error e2 =>
              simp only [hm] at h
              injection h with he
              subst he
              exact ih d1 e2 hm
          | ok q =>
              obtain ⟨d2, w2⟩ := q
              simp only [hm] at h
              exact Except.noConfusion h

theorem mergeGraphQLConfig_dataSources_binding_error (source : ExtensionGraphQLConfig) :
    ∀ (dest : AggregateConfig), dest.dataSources = none →
    (∃ v : JVal, ("dataSources", v) ∈ source ∧ v.isUndef = false) →
    mergeGraphQLConfig dest source =
      .error (.typeError "Cannot convert undefined or null to object") := by
  induction source with
  | nil =>
      intro dest hds hex
      obtain ⟨v, hmem, -⟩ := hex
      simp at hmem
  | cons hd tl ih =>
      intro dest hds hex
      obtain ⟨name, value⟩ := hd
      obtain ⟨v, hmem, hval⟩ := hex
      unfold mergeGraphQLConfig
      rcases List.mem_cons.mp hmem with hhd | htl
      · injection hhd with hk hv
        subst hk; subst hv
        rw [mergeStep_dataSources_error dest v hval hds]
      · cases hs : mergeStep dest name value with
        | error e =>
            rw [mergeStep_error dest name value e hs]
        | ok p =>
            obtain ⟨d1, w1⟩ := p
            have hd1 := mergeStep_dataSources_none dest name value d1 w1 hs hds
            have hrest := ih d1 hd1 ⟨v, htl, hval⟩
            simp only [hrest]

theorem mergeAll_ok_schemas (entries : List (String × ExtensionGraphQLConfig)) :
    ∀ (agg d : AggregateConfig) (ws : List Warning),
    mergeAll agg entries = .ok (d, ws) →
    d.schemas = agg.schemas ++ listConcat (entries.map (fun e => sourceFragments e.2)) := by
  induction entries with
  | nil =>
      intro agg d ws h
      simp [mergeAll] at h
      simp [listConcat, h.1]
  | cons hd tl ih =>
      intro agg d ws h
      obtain ⟨name, source⟩ := hd
      unfold mergeAll at h
      cases hs : mergeGraphQLConfig agg source with
      | error e => simp only [hs] at h; exact Except.noConfusion h
      | ok p =>
          obtain ⟨d1, w1⟩ := p
          simp only [hs] at h
          cases hm : mergeAll d1 tl with
          | error e => simp only [hm] at h; exact Except.noConfusion h
          | ok q =>
              obtain ⟨d2, w2⟩ := q
              simp only [hm] at h
              simp at h
              obtain ⟨hd2, -⟩ := h
              subst hd2
              have h1 := mergeGraphQLConfig_ok_schemas source agg d1 w1 hs
              have h2 := ih d1 d2 w2 hm
              simp [listConcat] at h2 ⊢
              rw [h2, h1, List.append_assoc]

theorem mergeAll_error (entries : List (String × ExtensionGraphQLConfig)) :
    ∀ (agg : AggregateConfig) (e : JSErr),
    mergeAll agg entries = .error e →
    e = .typeError "Cannot convert undefined or null to object" := by
  induction entries with
  | nil =>
      intro agg e h
      simp [mergeAll] at h
  | cons hd tl ih =>
      intro agg e h
      obtain ⟨name, source⟩ := hd
      unfold mergeAll at h
      cases hs : mergeGraphQLConfig agg source with
      | error e1 =>
          simp only [hs] at h
          injection h with he
          subst he
          exact mergeGraphQLConfig_error source agg e1 hs
      | ok p =>
          obtain ⟨d1, w1⟩ := p
          simp only [hs] at h
          cases hm : mergeAll d1 tl with
          | error e2 =>
              simp only [hm] at h
              injection h with he
              subst he
              exact ih d1 e2 hm
          | ok q =>
              obtain ⟨d2, w2⟩ := q
              simp only [hm] at h
              exact Except.noConfusion h

theorem mergeAll_dataSources_binding_error (entries : List (String × ExtensionGraphQLConfig)) :
    ∀ (agg : AggregateConfig), agg.dataSources = none →
    (∃ e ∈ entries, ∃ v : JVal, ("dataSources", v) ∈ e.2 ∧ v.isUndef = false) →
    mergeAll agg entries =
      .error (.typeError "Cannot convert undefined or null to object") := by
  induction entries with
  | nil =>
      intro agg hds hex
      obtain ⟨e, hmem, -⟩ := hex
      simp at hmem
  | cons hd tl ih =>
      intro agg hds hex
      obtain ⟨name, source⟩ := hd
      obtain ⟨entry, hmem, v, hv, hval⟩ := hex
      unfold mergeAll
      rcases List.mem_cons.mp hmem with hhd | htl
      · subst hhd
        rw [mergeGraphQLConfig_dataSources_binding_error source agg hds ⟨v, hv, hval⟩]
      · cases hs : mergeGraphQLConfig agg source with
        | error e =>
            rw [mergeGraphQLConfig_error source agg e hs]
        | ok p =>
            obtain ⟨d1, w1⟩ := p
            have hd1 := mergeGraphQLConfig_dataSources_none source agg d1 w1 hs hds
            have hrest := ih d1 hd1 ⟨entry, htl, v, hv, hval⟩
            simp only [hrest]

theorem mergeBackendConfigs_extra (configs : List (Option BackendConfigObj)) :
    ∀ (prev : BackendConfigObj), prev.extra = [] →
    (configs.foldl mergeBackendStep prev).extra = [] := by
  induction configs with
  | nil => intro prev hprev; simpa using hprev
  | cons hd tl ih =>
      intro prev hprev
      cases hd with
      | none => exact ih prev hprev
      | some c => exact ih _ rfl

theorem fetchBackendConfigLoop_lacking {ρ : Type} (req : ρ)
    (dataSources : List (String × ApiProvider ρ)) :
    ∀ (configs : List (Option BackendConfigObj)),
    (∃ entry ∈ dataSources, entry.2.fetchBackendConfig = none) →
    fetchBackendConfigLoop req dataSources configs = none := by
  induction dataSources with
  | nil =>
      intro configs hex
      obtain ⟨entry, hmem, -⟩ := hex
      simp at hmem
  | cons hd tl ih =>
      intro configs hex
      obtain ⟨apiName, api⟩ := hd
      obtain ⟨entry, hmem, hnone⟩ := hex
      unfold fetchBackendConfigLoop
      cases hfetch : api.fetchBackendConfig with
      | none => rfl
      | some f =>
          dsimp only
          rcases List.mem_cons.mp hmem with hhd | htl
          · subst hhd
            rw [hfetch] at hnone
            exact Option.noConfusion hnone
          · cases f req with
            | some apiConfig => exact ih _ ⟨entry, htl, hnone⟩
            | none => exact ih _ ⟨entry, htl, hnone⟩

/-- C1: the claim states that the synthesized pass-through resolver, invoked
with a request context in which the named data source exists and has a
function-valued method of the fields name, forwards all four resolver
arguments to it and returns its result unmodified without raising. On the
code as written this is false everywhere: the guard of line 279 applies
`typeof` to the boolean result of `dataSource[fieldName] !== 'function'`,
which is the truthy string `"boolean"`, so the resolver always throws the
"resolver method is not defined" error and the forwarding statement of
line 284 is unreachable. The first conjunct evaluates the resolver at the
claims own scenario (data source `X` present with function-valued `foo`);
the second shows no invocation whatsoever can resolve successfully. -/
theorem c1_bound_resolver_always_throws :
    boundResolver interpEx "X" "foo" (1 : Int) 2 ctxWithX 3 =
      ResolveOutcome.thrown
        (JSErr.error "ExtensionContainer: X.foo() resolver method is not defined!") ∧
    (∀ (γ α : Type) (interp : Nat → α → α → ReqContext γ → α → α)
       (dataSourceName fieldName : String) (obj args : α) (context : ReqContext γ)
       (info : α),
       ∃ e, boundResolver interp dataSourceName fieldName obj args context info =
         ResolveOutcome.thrown e) := by
  refine ⟨rfl, ?_⟩
  intro γ α interp dataSourceName fieldName obj args context info
  unfold boundResolver
  cases getApi context.dataSources dataSourceName with
  | none => exact ⟨_, rfl⟩
  | some dataSource => exact ⟨_, rfl⟩

/-- C2: the claim states that a synthesized resolver whose named data source
is absent from the request context resolves quietly to null and never raises.
On the code as written this is false: `getApi` returns `null` for the missing
name, and the guard of line 279 immediately reads `dataSource[fieldName]` on
that `null`, raising a `TypeError`. The first conjunct evaluates the resolver
at the claims scenario (no data source registered); the second shows the
same for every invocation with an empty data-source map. -/
theorem c2_missing_provider_throws :
    boundResolver interpEx "X" "foo" (1 : Int) 2 ctxNoX 3 =
      ResolveOutcome.thrown
        (JSErr.typeError "Cannot read properties of null (reading foo)") ∧
    (∀ (γ α : Type) (interp : Nat → α → α → ReqContext γ → α → α)
       (dataSourceName fieldName : String) (obj args : α) (x : γ) (info : α),
       boundResolver interp dataSourceName fieldName obj args ⟨[], x⟩ info =
         ResolveOutcome.thrown
           (JSErr.typeError
             ("Cannot read properties of null (reading " ++ fieldName ++ ")"))) :=
  ⟨rfl, fun _ _ _ _ _ _ _ _ _ => rfl⟩

/-- C3 counterexample: the claim asserts that base resolvers are carried into
the aggregate whether given as a single map or as an array; but when the base
configuration carries its resolvers as a (non-empty) array, the seeding
ternary of line 141 replaces them with the empty array, so nothing of the
base resolver maps reaches the aggregate. The last conjunct shows the claims
"seeded with baseConfig.context when present" is also not literal presence:
the line-137 ternary tests JS truthiness, so a present-but-falsy context
value (here the number 0) seeds no context modifier at all. -/
theorem c3_array_resolvers_dropped :
    baseWithArrayResolvers.resolvers =
      some (JVal.arr [JVal.dict [("Query", JVal.fn 0)]]) ∧
    (seedAggregate baseWithArrayResolvers).resolvers = [] ∧
    (seedAggregate ⟨none, none, some (JVal.num 0), none, none, []⟩).contextModifiers
      = [] :=
  ⟨rfl, rfl, rfl⟩

/-- C3 (amended): the aggregate is seeded from the base configurations own
schema, resolvers and context; a truthy non-array resolver map is normalized
into a one-element array, while a base resolvers value that is already an
array is dropped (replaced by the empty array); contextModifiers is seeded
with baseConfig.context when it is present and truthy (a present-but-falsy
context seeds nothing), provided the base carries no explicit
contextModifiers field of its own. -/
theorem c3_seed_aggregate :
    (∀ (base : GraphQLConfigDefaults) (m : JVal), jsIsArray m = false →
       jsTruthy m = true → base.resolvers = some m →
       (seedAggregate base).resolvers = [m]) ∧
    (∀ (base : GraphQLConfigDefaults) (vs : List JVal),
       base.resolvers = some (JVal.arr vs) → (seedAggregate base).resolvers = []) ∧
    (∀ (base : GraphQLConfigDefaults), base.resolvers = none →
       (seedAggregate base).resolvers = []) ∧
    (∀ (base : GraphQLConfigDefaults) (c : JVal), base.context = some c →
       jsTruthy c = true → base.contextModifiers = none →
       (seedAggregate base).contextModifiers = [c]) ∧
    (∀ (base : GraphQLConfigDefaults) (c : JVal), base.context = some c →
       jsTruthy c = false → base.contextModifiers = none →
       (seedAggregate base).contextModifiers = []) ∧
    (∀ (base : GraphQLConfigDefaults), base.context = none →
       base.contextModifiers = none → (seedAggregate base).contextModifiers = []) ∧
    (∀ (base : GraphQLConfigDefaults) (ss : List JVal), base.schemas = some ss →
       (seedAggregate base).schemas = ss) ∧
    (∀ (base : GraphQLConfigDefaults), base.schemas = none →
       (seedAggregate base).schemas = []) := by
  refine ⟨?_, ?_, ?_, ?_, ?_, ?_, ?_, ?_⟩
  · intro base m h1 h2 h3; simp [seedAggregate, h1, h2, h3]
  · intro base vs h; simp [seedAggregate, h, jsTruthy, jsIsArray]
  · intro base h; simp [seedAggregate, h]
  · intro base c h1 h2 h3; simp [seedAggregate, h1, h2, h3]
  · intro base c h1 h2 h3; simp [seedAggregate, h1, h2, h3]
  · intro base h1 h2; simp [seedAggregate, h1, h2]
  · intro base ss h; simp [seedAggregate, h]
  · intro base h; simp [seedAggregate, h]

/-- Witness for C3 (amended): a base configuration with a single (non-array)
resolver map and a truthy (function-valued) context seeds the aggregate with
exactly that one-element resolver array and that one context modifier. -/
theorem c3_seed_aggregate_witness :
    jsIsArray (JVal.dict [("Query", JVal.fn 1)]) = false ∧
    jsTruthy (JVal.dict [("Query", JVal.fn 1)]) = true ∧
    jsTruthy (JVal.fn 2) = true ∧
    (seedAggregate
      ⟨none, some (JVal.dict [("Query", JVal.fn 1)]), some (JVal.fn 2), none, none, []⟩).resolvers
      = [JVal.dict [("Query", JVal.fn 1)]] ∧
    (seedAggregate
      ⟨none, some (JVal.dict [("Query", JVal.fn 1)]), some (JVal.fn 2), none, none, []⟩).contextModifiers
      = [JVal.fn 2] :=
  ⟨rfl, rfl, rfl,
   c3_seed_aggregate.1 _ _ rfl rfl rfl,
   c3_seed_aggregate.2.2.2.1 _ _ rfl rfl rfl⟩

/-- C4: the backend-config reduction starts from an empty accumulator;
when both sides carry a locales array, one step keeps exactly the current
results locales that also occur in the accumulated ones (string equality);
when exactly one side carries a locales array, that side is taken; the
reduced object carries only the merged locales field with every other
incoming field dropped; and the two concrete aggregations of the
specification evaluate as stated. -/
theorem c4_merge_backend_configs :
    (∀ (prevLocales currLocales : List String) (pe ce : List (String × JVal)),
       mergeBackendStep ⟨some prevLocales, pe⟩ (some ⟨some currLocales, ce⟩) =
         ⟨some (currLocales.filter (fun loc => prevLocales.contains loc)), []⟩) ∧
    (∀ (currLocales : List String) (pe ce : List (String × JVal)),
       mergeBackendStep ⟨none, pe⟩ (some ⟨some currLocales, ce⟩) =
         ⟨some currLocales, []⟩) ∧
    (∀ (prevLocales : List String) (pe ce : List (String × JVal)),
       mergeBackendStep ⟨some prevLocales, pe⟩ (some ⟨none, ce⟩) =
         ⟨some prevLocales, []⟩) ∧
    (∀ (configs : List (Option BackendConfigObj)),
       (mergeBackendConfigs configs).extra = []) ∧
    mergeBackendConfigs
        [some ⟨some ["en", "de"], []⟩,
         some ⟨some ["de", "fr"], [("shopVersion", JVal.str "2")]⟩] =
      ⟨some ["de"], []⟩ ∧
    mergeBackendConfigs [some ⟨none, []⟩, some ⟨some ["en"], []⟩] =
      ⟨some ["en"], []⟩ :=
  ⟨fun _ _ _ _ => rfl, fun _ _ _ => rfl, fun _ _ _ => rfl,
   fun configs => mergeBackendConfigs_extra configs _ rfl, rfl, rfl⟩

/-- C5: whenever any configured data-source provider lacks a function-valued
fetchBackendConfig capability, the fetchBackendConfig resolver returns no
result at all for the whole aggregation, never a partial merge of the
remaining providers. -/
theorem c5_fetch_backend_config_fail_fast :
    ∀ (ρ : Type) (dataSources : List (String × ApiProvider ρ)) (req : ρ),
    (∃ entry ∈ dataSources, entry.2.fetchBackendConfig = none) →
    fetchBackendConfig dataSources req = none :=
  fun _ dataSources req hex => fetchBackendConfigLoop_lacking req dataSources [] hex

/-- Witness for C5: with one capable provider followed by one lacking the
capability, the aggregation yields no result even though the capable provider
reported a locale list. -/
theorem c5_fetch_backend_config_fail_fast_witness :
    (∃ entry ∈ [("a", providerEn), ("b", providerNoFetch)],
       entry.2.fetchBackendConfig = none) ∧
    fetchBackendConfig [("a", providerEn), ("b", providerNoFetch)] () = none := by
  have hex : ∃ entry ∈ [("a", providerEn), ("b", providerNoFetch)],
      entry.2.fetchBackendConfig = none :=
    ⟨("b", providerNoFetch),
     List.mem_cons_of_mem _ (List.mem_singleton_self _), rfl⟩
  exact ⟨hex, c5_fetch_backend_config_fail_fast Unit _ () hex⟩

/-- C6: the synthesized context function folds the accumulated modifiers over
the empty object: appending a modifier to the sequence changes the built
context exactly by assigning that modifiers contribution (computed from the
request argument and the context built so far) on top of the previous
context, so for every key the later modifiers value wins and otherwise the
earlier value is kept; function modifiers are invoked with
(request, contextSoFar) and object modifiers are merged as literals; and the
concrete run shows a later modifier overriding an earlier field while reading
the accumulated context. -/
theorem c6_context_builder :
    (∀ (ρ : Type) (arg : ρ), buildContext ([] : List (CtxModifier ρ)) arg = []) ∧
    (∀ (ρ : Type) (mods : List (CtxModifier ρ)) (m : CtxModifier ρ) (arg : ρ)
       (key : String),
       lookupKey (buildContext (mods ++ [m]) arg) key =
         match lastKey (applyModifier arg (buildContext mods arg) m) key with
         | some v => some v
         | none => lookupKey (buildContext mods arg) key) ∧
    (∀ (ρ : Type) (arg : ρ) (ctx : List (String × JVal))
       (f : ρ → List (String × JVal) → List (String × JVal)),
       applyModifier arg ctx (CtxModifier.func f) = f arg ctx) ∧
    (∀ (ρ : Type) (arg : ρ) (ctx : List (String × JVal))
       (fields : List (String × JVal)),
       applyModifier arg ctx (CtxModifier.objLit fields) = fields) ∧
    buildContext
        [CtxModifier.objLit [("a", JVal.num 1), ("b", JVal.num 2)],
         CtxModifier.func
           (fun (r : Int) ctx => [("a", JVal.num r), ("n", JVal.num (Int.ofNat ctx.length))])]
        7 =
      [("a", JVal.num 7), ("b", JVal.num 2), ("n", JVal.num 2)] := by
  refine ⟨fun _ _ => rfl, ?_, fun _ _ _ _ => rfl, fun _ _ _ _ => rfl, rfl⟩
  intro ρ mods m arg key
  have hfold : buildContext (mods ++ [m]) arg =
      jsAssign (buildContext mods arg) (applyModifier arg (buildContext mods arg) m) := by
    unfold buildContext
    rw [List.foldl_append]
    rfl
  rw [hfold, lookupKey_jsAssign]
  cases lastKey (applyModifier arg (buildContext mods arg) m) key <;> rfl

/-- C7: the schema-fragment sequence of the aggregate built by
createGraphQLConfig equals the seeded base fragments followed by the
concatenation of every registered extensions own fragments in exact
registration order, extensions contributing zero fragments included. -/
theorem c7_schema_fragment_order (base : GraphQLConfigDefaults)
    (entries : List (String × ExtensionGraphQLConfig)) (agg : AggregateConfig)
    (ws : List Warning)
    (h : createGraphQLConfigMerged base entries = .ok (agg, ws)) :
    agg.schemas = (seedAggregate base).schemas ++
      listConcat (entries.map (fun e => sourceFragments e.2)) :=
  mergeAll_ok_schemas entries (seedAggregate base) agg ws h

/-- Witness for C7: three extensions, the middle one contributing zero
fragments, yield the aggregate fragment sequence in registration order with
no gap shifting the order. -/
theorem c7_schema_fragment_order_witness :
    ∃ agg ws, createGraphQLConfigMerged emptyDefaults entriesThree = .ok (agg, ws) ∧
      agg.schemas = (seedAggregate emptyDefaults).schemas ++
        listConcat (entriesThree.map (fun e => sourceFragments e.2)) :=
  ⟨_, _, rfl, c7_schema_fragment_order emptyDefaults entriesThree _ _ rfl⟩

/-- C8: re-registering an extension under an identifier already present
replaces the prior stored config entirely: setting the same registry key
twice equals setting it once with the later config, the registry then maps
the identifier to the later config, and the aggregate rebuilt from the
registry after a re-registration carries only the new contribution, never
the old one. -/
theorem c8_reregistration_overwrites :
    (∀ (entries : List (String × ExtensionGraphQLConfig)) (key : String)
       (c1 c2 : ExtensionGraphQLConfig),
       mapSet (mapSet entries key c1) key c2 = mapSet entries key c2) ∧
    (∀ (entries : List (String × ExtensionGraphQLConfig)) (key : String)
       (c1 c2 : ExtensionGraphQLConfig),
       lookupKey (mapSet (mapSet entries key c1) key c2) key = some c2) ∧
    registryTwice = [("shop", extNew)] ∧
    (∃ agg ws, createGraphQLConfigMerged emptyDefaults registryTwice = .ok (agg, ws) ∧
       agg.schemas = [JVal.str "type New"]) :=
  ⟨fun entries key c1 c2 => setKey_setKey entries key c1 c2,
   fun entries key c1 c2 => by
     show lookupKey (setKey (setKey entries key c1) key c2) key = some c2
     rw [setKey_setKey]
     exact lookupKey_setKey_self entries key c2,
   rfl, ⟨_, _, rfl, rfl⟩⟩

/-- C9 counterexample: a source config may contain a key outside the five
recognized ones whose value is `undefined`; the guard of line 182 then skips
the entry before the default warning case is reached, so no warning is
logged, contradicting the claim that every unsupported key is warned about.
(The aggregate is indeed unchanged.) -/
theorem c9_undefined_unsupported_key_silent :
    mergeGraphQLConfig agg0 [("persistedQueries", JVal.undef)] = .ok (agg0, []) ∧
    (["schema", "schemas", "resolvers", "context",
      "dataSources"].contains "persistedQueries") = false :=
  ⟨rfl, rfl⟩

/-- C9 (amended): merging leaves the aggregate unchanged outside the
recognized fields (the passthrough fields and the base context are exactly
preserved by every successful merge); and every source entry whose key is
non-empty, not one of schema/schemas/resolvers/context/dataSources, and whose
value is defined produces an unsupported-option warning naming that key
(entries with an empty key or an undefined value are skipped silently). -/
theorem c9_unsupported_key_warned_and_frame (dest : AggregateConfig)
    (source : ExtensionGraphQLConfig) (d : AggregateConfig) (ws : List Warning)
    (h : mergeGraphQLConfig dest source = .ok (d, ws)) :
    (d.others = dest.others ∧ d.context = dest.context) ∧
    (∀ (key : String) (v : JVal), (key, v) ∈ source → key ≠ "" →
       v.isUndef = false →
       key ∉ ["schema", "schemas", "resolvers", "context", "dataSources"] →
       Warning.unsupportedOption key ∈ ws) :=
  ⟨mergeGraphQLConfig_frame source dest d ws h,
   fun key v hmem hname hval hrec =>
     mergeGraphQLConfig_warns source dest d ws h key v hmem hname hval hrec⟩

/-- Witness for C9 (amended): merging a defined value under the unrecognized
key cacheControl leaves the aggregate unchanged and logs the
unsupported-option warning for that key. -/
theorem c9_unsupported_key_warned_and_frame_witness :
    mergeGraphQLConfig agg0 [("cacheControl", JVal.num 1)] =
      .ok (agg0, [Warning.unsupportedOption "cacheControl"]) ∧
    agg0.others = agg0.others ∧
    Warning.unsupportedOption "cacheControl" ∈
      [Warning.unsupportedOption "cacheControl"] := by
  have h : mergeGraphQLConfig agg0 [("cacheControl", JVal.num 1)] =
      .ok (agg0, [Warning.unsupportedOption "cacheControl"]) := rfl
  refine ⟨h, (c9_unsupported_key_warned_and_frame agg0 _ agg0 _ h).1.1, ?_⟩
  exact (c9_unsupported_key_warned_and_frame agg0 _ agg0 _ h).2 "cacheControl"
    (JVal.num 1) (List.mem_singleton_self _) (by decide) rfl (by decide)

/-- C10: when the base configuration has no dataSources field, the merge loop
of createGraphQLConfig raises a TypeError (Object.assign with an undefined
destination) as soon as any registered extensions stored config contains a
defined dataSources binding, rather than creating the mapping on the
aggregate. -/
theorem c10_missing_base_data_sources_raises (base : GraphQLConfigDefaults)
    (entries : List (String × ExtensionGraphQLConfig))
    (hbase : base.dataSources = none)
    (hex : ∃ e ∈ entries, ∃ v : JVal, ("dataSources", v) ∈ e.2 ∧ v.isUndef = false) :
    createGraphQLConfigMerged base entries =
      .error (.typeError "Cannot convert undefined or null to object") := by
  have hseed : (seedAggregate base).dataSources = none := by
    simp [seedAggregate, hbase]
  exact mergeAll_dataSources_binding_error entries (seedAggregate base) hseed hex

/-- Witness for C10: an empty base configuration plus one extension binding a
data source make the merge loop raise the TypeError. -/
theorem c10_missing_base_data_sources_raises_witness :
    emptyDefaults.dataSources = none ∧
    (∃ e ∈ entriesWithDataSources, ∃ v : JVal,
       ("dataSources", v) ∈ e.2 ∧ v.isUndef = false) ∧
    createGraphQLConfigMerged emptyDefaults entriesWithDataSources =
      .error (.typeError "Cannot convert undefined or null to object") := by
  have hex : ∃ e ∈ entriesWithDataSources, ∃ v : JVal,
      ("dataSources", v) ∈ e.2 ∧ v.isUndef = false :=
    ⟨("shop", [("dataSources", JVal.dict [("shopApi", JVal.fn 7)])]),
     List.mem_singleton_self _, JVal.dict [("shopApi", JVal.fn 7)],
     List.mem_singleton_self _, rfl⟩
  exact ⟨rfl, hex,
    c10_missing_base_data_sources_raises emptyDefaults entriesWithDataSources rfl hex⟩
